import Mathlib

/-!
# Verification of the `wtm` multi-agent worktree manager

Shallow embedding of the core of `wtm_multi_agent` (Python) into Lean 4,
together with theorems settling the specification claims.

Conventions of the embedding:
* Python `str` is Lean `String`; character-level primitives (`str.lower`,
  `str.isalnum`, `str.strip`) are modelled at the ASCII level
  (`Char.toLower` / `Char.isAlphanum` / `pyStrip`), agreeing with Python
  on ASCII input; theorems that depend on per-character behaviour either
  use concrete ASCII inputs or carry explicit ASCII hypotheses.
* Python `dict` is an insertion-ordered association list
  `List (String × String)`; `dict.update` is modelled key by key.
* JSON values are an inductive `Json` type; `json.dump`/`json.load` on a
  file round-trips a JSON value, so the cache file is modelled at the
  `Json`-value level.
* Fallible code returns `Except`; a Python exception is an `Except.error`.
-/

/-- The `JiraTicket` dataclass of `context.py`, with its declared field
types (`str`, `str`, `Optional[str]`, `List[str]`, `Dict[str, str]`). -/
structure JiraTicket where
  key : String
  summary : String
  url : Option String := none
  labels : List String := []
  extra : List (String × String) := []
deriving Repr, DecidableEq

/-- The character filter of `JiraTicket.slug`:
`ch.isalnum() or ch in {"-", "_"}` (ASCII model of `str.isalnum`). -/
def slugKeep (c : Char) : Bool :=
  c.isAlphanum || c == '-' || c == '_'

/-- Character-level body of `JiraTicket.slug`:
`normalised = summary.lower().replace(" ", "-")`,
`safe = "".join(ch for ch in normalised if ch.isalnum() or ch in {"-","_"})`,
`f"{key.lower()}-{safe}"[:80]`. -/
def slugChars (key summary : List Char) : List Char :=
  let normalised := (summary.map Char.toLower).map (fun c => if c = ' ' then '-' else c)
  let safe := normalised.filter slugKeep
  ((key.map Char.toLower) ++ '-' :: safe).take 80

/-- `JiraTicket.slug` from `context.py`. -/
def JiraTicket.slug (t : JiraTicket) : String :=
  ⟨slugChars t.key.data t.summary.data⟩

/-- The character class `[a-z0-9_-]` of the spec's slug invariant. -/
def isSlugChar (c : Char) : Bool :=
  ('a' ≤ c && c ≤ 'z') || ('0' ≤ c && c ≤ '9') || c == '-' || c == '_'

/-- On ASCII input, a character kept by the source's slug filter after
lowercasing and space-to-hyphen replacement lies in `[a-z0-9_-]`. -/
theorem slugKeep_ascii_isSlugChar (n : Fin 128) :
    slugKeep (if (Char.ofNat n.val).toLower = ' ' then '-' else (Char.ofNat n.val).toLower) = true →
    isSlugChar (if (Char.ofNat n.val).toLower = ' ' then '-' else (Char.ofNat n.val).toLower) = true := by
  revert n
  decide

theorem slug_length_le (t : JiraTicket) : t.slug.length ≤ 80 := by
  show (slugChars t.key.data t.summary.data).length ≤ 80
  simp [slugChars]

theorem slug_length_pos (t : JiraTicket) : 0 < t.slug.length := by
  show 0 < (slugChars t.key.data t.summary.data).length
  simp [slugChars]

/-- C2, amended part: slug characters are in `[a-z0-9_-]` under ASCII-side
hypotheses on `key` and `summary`. -/
theorem slug_chars_in_class (t : JiraTicket)
    (hkey : ∀ c ∈ t.key.data, isSlugChar c.toLower = true)
    (hsum : ∀ c ∈ t.summary.data, c.toNat < 128) :
    ∀ c ∈ t.slug.data, isSlugChar c = true := by
  intro c hc
  have hc' : c ∈ (t.key.data.map Char.toLower) ++
      '-' :: ((t.summary.data.map Char.toLower).map
        (fun c => if c = ' ' then '-' else c)).filter slugKeep := by
    exact List.take_subset _ _ hc
  rcases List.mem_append.mp hc' with h | h
  · rcases List.mem_map.mp h with ⟨c0, hc0, rfl⟩
    exact hkey c0 hc0
  · rcases List.mem_cons.mp h with rfl | h
    · decide
    · rcases List.mem_filter.mp h with ⟨hmem, hkeep⟩
      rcases List.mem_map.mp hmem with ⟨c1, hc1, rfl⟩
      rcases List.mem_map.mp hc1 with ⟨c0, hc0, rfl⟩
      have hn : c0.toNat < 128 := hsum c0 hc0
      have := slugKeep_ascii_isSlugChar ⟨c0.toNat, hn⟩
      simp only [Char.ofNat_toNat] at this
      exact this hkeep

set_option linter.unusedVariables false in
/-- C2 (amended): for every ticket, the slug is non-empty and has length at
most 80; moreover, whenever every lowercased key character lies in
`[a-z0-9_-]` and the summary is ASCII, every slug character lies in
`[a-z0-9_-]` (hence the slug is lowercase). Unconditionally the claim is
false: the key is lowercased but never sanitised (see the counterexample). -/
theorem slug_invariant (t : JiraTicket) :
    0 < t.slug.length ∧ t.slug.length ≤ 80 ∧
    ((∀ c ∈ t.key.data, isSlugChar c.toLower = true) →
     (∀ c ∈ t.summary.data, c.toNat < 128) →
     ∀ c ∈ t.slug.data, isSlugChar c = true) :=
  ⟨slug_length_pos t, slug_length_le t, fun hkey hsum => slug_chars_in_class t hkey hsum⟩

/-- C2 witness: the amended invariant evaluated on the spec's scenario
ticket `{key: "MOB-42", summary: "Fix Login Crash!"}`, whose slug is
`"mob-42-fix-login-crash"`. -/
theorem slug_invariant_witness :
    (0 < (JiraTicket.slug { key := "MOB-42", summary := "Fix Login Crash!" }).length ∧
      (JiraTicket.slug { key := "MOB-42", summary := "Fix Login Crash!" }).length ≤ 80 ∧
      ((∀ c ∈ ("MOB-42" : String).data, isSlugChar c.toLower = true) →
       (∀ c ∈ ("Fix Login Crash!" : String).data, c.toNat < 128) →
       ∀ c ∈ (JiraTicket.slug { key := "MOB-42", summary := "Fix Login Crash!" }).data,
         isSlugChar c = true)) ∧
    JiraTicket.slug { key := "MOB-42", summary := "Fix Login Crash!" } = "mob-42-fix-login-crash" :=
  ⟨slug_invariant { key := "MOB-42", summary := "Fix Login Crash!" }, by decide⟩

/-- C2 counterexample: the claim as stated is false. The ticket with key
`"A B"` and empty summary has slug `"a b-"`, which contains a space, not
only characters of `[a-z0-9_-]`. -/
theorem slug_charset_counterexample :
    JiraTicket.slug { key := "A B", summary := "" } = "a b-" ∧
    ¬ (∀ c ∈ (JiraTicket.slug { key := "A B", summary := "" }).data, isSlugChar c = true) := by
  constructor
  · decide
  · intro h
    have := h ' ' (by decide)
    simp [isSlugChar] at this

/-- The `WorkspaceContext` dataclass of `context.py` (paths modelled as
strings). -/
structure WorkspaceContext where
  repo_root : String
  worktree_path : String
  ticket : JiraTicket
  quick_actions : List String
  env : List (String × String)
deriving Repr, DecidableEq

/-- The `ReactConfig` dataclass of `config.py` (defaults as in the source). -/
structure ReactConfig where
  quick_actions : List String :=
    ["npm install", "npm run lint", "npm run test", "npx expo start --dev-client"]
  extra_env : List (String × String) := []
deriving Repr, DecidableEq

/-- Python `list(dict.fromkeys(l))`: keep the first occurrence of each
element, drop later duplicates, preserve order. -/
def fromKeysDedup : List String → List String
  | [] => []
  | x :: xs => x :: fromKeysDedup (xs.filter (· != x))
termination_by l => l.length
decreasing_by simp; exact Nat.lt_succ_of_le (List.length_filter_le _ _)

/-- Python dict assignment `d[k] = v` on an insertion-ordered association
list: replace the binding in place if the key is present, else append. -/
def dictSet : List (String × String) → String → String → List (String × String)
  | [], k, v => [(k, v)]
  | p :: rest, k, v => if p.1 = k then (p.1, v) :: rest else p :: dictSet rest k v

/-- Python `base.update(upd)`: assign every binding of `upd`, in order,
into `base`. -/
def dictUpdate (base upd : List (String × String)) : List (String × String) :=
  upd.foldl (fun acc kv => dictSet acc kv.1 kv.2) base

/-- Python `d.get(k)` (`none` when the key is absent). -/
def dictGet (d : List (String × String)) (k : String) : Option String :=
  (d.find? (fun p => p.1 == k)).map (·.2)

/-- The mapping returned by `ReactEnvironmentAgent.handle`. -/
structure EnrichResult where
  quick_actions : List String
  env : List (String × String)
deriving Repr, DecidableEq

/-- `ReactEnvironmentAgent.handle` from `react_env.py`:
`merged_actions = list(dict.fromkeys([*config.quick_actions, *extra_actions]))`,
`context.quick_actions[:] = merged_actions`, `context.env.update(config.extra_env)`,
returning the merged actions and the (mutated) env. The first component is
the context after the in-place mutation. -/
def ReactEnvironmentAgent.handle (config : ReactConfig) (extra_actions : List String)
    (context : WorkspaceContext) : WorkspaceContext × EnrichResult :=
  let merged_actions := fromKeysDedup (config.quick_actions ++ extra_actions)
  let env := dictUpdate context.env config.extra_env
  ({ context with quick_actions := merged_actions, env := env },
   { quick_actions := merged_actions, env := env })

theorem fromKeysDedup_sublist : ∀ l : List String, List.Sublist (fromKeysDedup l) l
  | [] => by simp [fromKeysDedup]
  | x :: xs => by
    have h := (fromKeysDedup_sublist (xs.filter (· != x))).trans (List.filter_sublist xs)
    simp only [fromKeysDedup]
    exact List.Sublist.cons₂ x h
termination_by l => l.length
decreasing_by simp; exact Nat.lt_succ_of_le (List.length_filter_le _ _)

theorem mem_fromKeysDedup : ∀ (l : List String) (y : String), y ∈ fromKeysDedup l ↔ y ∈ l
  | [], y => by simp [fromKeysDedup]
  | x :: xs, y => by
    simp only [fromKeysDedup, List.mem_cons, mem_fromKeysDedup (xs.filter (· != x)) y,
      List.mem_filter]
    constructor
    · rintro (h | ⟨h, _⟩)
      · exact Or.inl h
      · exact Or.inr h
    · rintro (h | h)
      · exact Or.inl h
      · by_cases hyx : y = x
        · exact Or.inl hyx
        · exact Or.inr ⟨h, by simp [bne_iff_ne, hyx]⟩
termination_by l => l.length
decreasing_by simp; exact Nat.lt_succ_of_le (List.length_filter_le _ _)

theorem fromKeysDedup_nodup : ∀ l : List String, (fromKeysDedup l).Nodup
  | [] => by simp [fromKeysDedup]
  | x :: xs => by
    simp only [fromKeysDedup, List.nodup_cons]
    refine ⟨fun hx => ?_, fromKeysDedup_nodup (xs.filter (· != x))⟩
    have hmem := (mem_fromKeysDedup (xs.filter (· != x)) x).mp hx
    have := (List.mem_filter.mp hmem).2
    simp at this
termination_by l => l.length
decreasing_by simp; exact Nat.lt_succ_of_le (List.length_filter_le _ _)

/-- Filtering by an element-wise predicate preserves the relative order of
first occurrences. -/
theorem indexOf_filter_lt (p : String → Bool) :
    ∀ (xs : List String) (a b : String), a ∈ xs.filter p → b ∈ xs.filter p →
      (xs.filter p).indexOf a < (xs.filter p).indexOf b → xs.indexOf a < xs.indexOf b := by
  intro xs
  induction xs with
  | nil => intro a b ha _ _; simp at ha
  | cons c rest ih =>
    intro a b ha hb hlt
    by_cases hpc : p c = true
    · rw [List.filter_cons_of_pos hpc] at ha hb hlt
      by_cases hac : a = c
      · subst hac
        have hba : b ≠ a := by
          intro h
          subst h
          simp [List.indexOf_cons_self] at hlt
        rw [List.indexOf_cons_self, List.indexOf_cons_ne _ (Ne.symm hba)]
        exact Nat.succ_pos _
      · by_cases hbc : b = c
        · rw [hbc, List.indexOf_cons_self] at hlt
          exact absurd hlt (Nat.not_lt_zero _)
        · have ha' : a ∈ rest.filter p := (List.mem_cons.mp ha).resolve_left hac
          have hb' : b ∈ rest.filter p := (List.mem_cons.mp hb).resolve_left hbc
          rw [List.indexOf_cons_ne _ (Ne.symm hac), List.indexOf_cons_ne _ (Ne.symm hbc)] at hlt
          rw [List.indexOf_cons_ne _ (Ne.symm hac), List.indexOf_cons_ne _ (Ne.symm hbc)]
          exact Nat.succ_lt_succ (ih a b ha' hb' (Nat.lt_of_succ_lt_succ hlt))
    · rw [List.filter_cons_of_neg hpc] at ha hb hlt
      have hac : a ≠ c := fun h => hpc (h ▸ (List.mem_filter.mp ha).2)
      have hbc : b ≠ c := fun h => hpc (h ▸ (List.mem_filter.mp hb).2)
      rw [List.indexOf_cons_ne _ (Ne.symm hac), List.indexOf_cons_ne _ (Ne.symm hbc)]
      exact Nat.succ_lt_succ (ih a b ha hb hlt)

/-- `fromKeysDedup l` lists elements in order of their first occurrence in
`l`. -/
theorem fromKeysDedup_pairwise_indexOf : ∀ l : List String,
    (fromKeysDedup l).Pairwise (fun a b => l.indexOf a < l.indexOf b)
  | [] => by simp [fromKeysDedup]
  | x :: xs => by
    simp only [fromKeysDedup, List.pairwise_cons]
    constructor
    · intro y hy
      have hyf : y ∈ xs.filter (· != x) := (mem_fromKeysDedup (xs.filter (· != x)) y).mp hy
      have hyx : y ≠ x := by
        have := (List.mem_filter.mp hyf).2
        simpa [bne_iff_ne] using this
      rw [List.indexOf_cons_self, List.indexOf_cons_ne _ (Ne.symm hyx)]
      exact Nat.succ_pos _
    · refine (fromKeysDedup_pairwise_indexOf (xs.filter (· != x))).imp_of_mem ?_
      intro a b ha hb hab
      have haf : a ∈ xs.filter (· != x) := (mem_fromKeysDedup (xs.filter (· != x)) a).mp ha
      have hbf : b ∈ xs.filter (· != x) := (mem_fromKeysDedup (xs.filter (· != x)) b).mp hb
      have hax : a ≠ x := by
        have := (List.mem_filter.mp haf).2
        simpa [bne_iff_ne] using this
      have hbx : b ≠ x := by
        have := (List.mem_filter.mp hbf).2
        simpa [bne_iff_ne] using this
      rw [List.indexOf_cons_ne _ (Ne.symm hax), List.indexOf_cons_ne _ (Ne.symm hbx)]
      exact Nat.succ_lt_succ (indexOf_filter_lt (· != x) xs a b haf hbf hab)
termination_by l => l.length
decreasing_by simp; exact Nat.lt_succ_of_le (List.length_filter_le _ _)

theorem dictGet_cons (p : String × String) (l : List (String × String)) (k : String) :
    dictGet (p :: l) k = if p.1 = k then some p.2 else dictGet l k := by
  by_cases h : p.1 = k
  · simp [dictGet, List.find?, h]
  · have hb : (p.1 == k) = false := by simpa using h
    simp [dictGet, List.find?, h, hb]

theorem dictGet_dictSet_self (k v : String) :
    ∀ d : List (String × String), dictGet (dictSet d k v) k = some v := by
  intro d
  induction d with
  | nil => simp [dictSet, dictGet, List.find?]
  | cons p rest ih =>
    by_cases h : p.1 = k
    · simp [dictSet, h, dictGet_cons]
    · simpa [dictSet, h, dictGet_cons] using ih

theorem dictGet_dictSet_ne (k q v : String) (hkq : k ≠ q) :
    ∀ d : List (String × String), dictGet (dictSet d k v) q = dictGet d q := by
  intro d
  induction d with
  | nil => simp [dictSet, dictGet_cons, dictGet, hkq]
  | cons p rest ih =>
    by_cases h : p.1 = k
    · simp [dictSet, h, dictGet_cons, hkq]
    · simp [dictSet, h, dictGet_cons, ih]

theorem dictGet_eq_none_of_not_mem (k : String) (l : List (String × String))
    (h : k ∉ l.map Prod.fst) : dictGet l k = none := by
  have hf : List.find? (fun p => p.1 == k) l = none := by
    rw [List.find?_eq_none]
    intro x hx hbeq
    exact h (List.mem_map.mpr ⟨x, hx, by simpa using hbeq⟩)
  simp [dictGet, hf]

theorem dictGet_dictUpdate_of_none (k : String) :
    ∀ (upd base : List (String × String)), dictGet upd k = none →
      dictGet (dictUpdate base upd) k = dictGet base k := by
  intro upd
  induction upd with
  | nil => intro base _; rfl
  | cons q rest ih =>
    intro base hnone
    rw [dictGet_cons] at hnone
    by_cases hq : q.1 = k
    · simp [hq] at hnone
    · rw [if_neg hq] at hnone
      show dictGet (dictUpdate (dictSet base q.1 q.2) rest) k = dictGet base k
      rw [ih (dictSet base q.1 q.2) hnone, dictGet_dictSet_ne q.1 k q.2 hq]

theorem dictGet_dictUpdate_of_some (k w : String) :
    ∀ (upd base : List (String × String)), (upd.map Prod.fst).Nodup →
      dictGet upd k = some w → dictGet (dictUpdate base upd) k = some w := by
  intro upd
  induction upd with
  | nil => intro base _ h; simp [dictGet, List.find?] at h
  | cons q rest ih =>
    intro base hnodup hsome
    rw [List.map_cons, List.nodup_cons] at hnodup
    rw [dictGet_cons] at hsome
    by_cases hq : q.1 = k
    · rw [if_pos hq] at hsome
      have hrest : dictGet rest k = none :=
        dictGet_eq_none_of_not_mem k rest (hq ▸ hnodup.1)
      show dictGet (dictUpdate (dictSet base q.1 q.2) rest) k = some w
      rw [dictGet_dictUpdate_of_none k rest (dictSet base q.1 q.2) hrest, hq,
        dictGet_dictSet_self]
      exact hsome ▸ rfl
    · rw [if_neg hq] at hsome
      exact ih (dictSet base q.1 q.2) hnodup.2 hsome

/-- C3 counterexample: the claim as stated is false. With a caller env
binding `"KEY" ↦ "caller"` and a configured `extra_env` binding
`"KEY" ↦ "configured"`, after `ReactEnvironmentAgent.handle` the context
env maps `"KEY"` to the configured value, not the caller's pre-set one
(`context.env.update(self.config.extra_env)` lets configured keys win). -/
theorem env_merge_counterexample :
    dictGet ((ReactEnvironmentAgent.handle
        { quick_actions := [], extra_env := [("KEY", "configured")] } []
        { repo_root := "r", worktree_path := "w",
          ticket := { key := "k", summary := "s" },
          quick_actions := [], env := [("KEY", "caller")] }).1.env) "KEY" =
      some "configured" ∧
    dictGet ((ReactEnvironmentAgent.handle
        { quick_actions := [], extra_env := [("KEY", "configured")] } []
        { repo_root := "r", worktree_path := "w",
          ticket := { key := "k", summary := "s" },
          quick_actions := [], env := [("KEY", "caller")] }).1.env) "KEY" ≠
      some "caller" := by
  constructor
  · decide
  · decide

/-- C3 (amended): the environment merge performed by
`ReactEnvironmentAgent.handle` is a destructive union in which CONFIGURED
keys overwrite caller keys of the same name: for every context whose env
already binds a key `K`, after `handle` the value of `K` is the configured
`extra_env` value when `extra_env` binds `K`, and the caller's pre-set
value otherwise. (The `Nodup` hypothesis records that a Python dict binds
each key once.) -/
theorem env_merge_configured_wins (config : ReactConfig) (extra_actions : List String)
    (context : WorkspaceContext) (K v : String)
    (hnodup : (config.extra_env.map Prod.fst).Nodup)
    (hpre : dictGet context.env K = some v) :
    (∀ w, dictGet config.extra_env K = some w →
      dictGet ((ReactEnvironmentAgent.handle config extra_actions context).1.env) K = some w) ∧
    (dictGet config.extra_env K = none →
      dictGet ((ReactEnvironmentAgent.handle config extra_actions context).1.env) K = some v) := by
  constructor
  · intro w hw
    exact dictGet_dictUpdate_of_some K w config.extra_env context.env hnodup hw
  · intro hnone
    show dictGet (dictUpdate context.env config.extra_env) K = some v
    rw [dictGet_dictUpdate_of_none K config.extra_env context.env hnone]
    exact hpre

/-- C3 witness: `env_merge_configured_wins` applied at a concrete context
(`env = [("K", "caller"), ("L", "kept")]`, configured
`extra_env = [("K", "configured")]`). -/
theorem env_merge_configured_wins_witness :
    ((∀ w, dictGet [("K", "configured")] "K" = some w →
      dictGet ((ReactEnvironmentAgent.handle
        { quick_actions := [], extra_env := [("K", "configured")] } []
        { repo_root := "r", worktree_path := "w",
          ticket := { key := "k", summary := "s" },
          quick_actions := [], env := [("K", "caller"), ("L", "kept")] }).1.env) "K" = some w) ∧
    (dictGet [("K", "configured")] "K" = none →
      dictGet ((ReactEnvironmentAgent.handle
        { quick_actions := [], extra_env := [("K", "configured")] } []
        { repo_root := "r", worktree_path := "w",
          ticket := { key := "k", summary := "s" },
          quick_actions := [], env := [("K", "caller"), ("L", "kept")] }).1.env) "K" = some "caller")) ∧
    ((∀ w, dictGet [("K", "configured")] "L" = some w →
      dictGet ((ReactEnvironmentAgent.handle
        { quick_actions := [], extra_env := [("K", "configured")] } []
        { repo_root := "r", worktree_path := "w",
          ticket := { key := "k", summary := "s" },
          quick_actions := [], env := [("K", "caller"), ("L", "kept")] }).1.env) "L" = some w) ∧
    (dictGet [("K", "configured")] "L" = none →
      dictGet ((ReactEnvironmentAgent.handle
        { quick_actions := [], extra_env := [("K", "configured")] } []
        { repo_root := "r", worktree_path := "w",
          ticket := { key := "k", summary := "s" },
          quick_actions := [], env := [("K", "caller"), ("L", "kept")] }).1.env) "L" = some "kept")) :=
  ⟨env_merge_configured_wins
      { quick_actions := [], extra_env := [("K", "configured")] } []
      { repo_root := "r", worktree_path := "w",
        ticket := { key := "k", summary := "s" },
        quick_actions := [], env := [("K", "caller"), ("L", "kept")] }
      "K" "caller" (by decide) (by decide),
   env_merge_configured_wins
      { quick_actions := [], extra_env := [("K", "configured")] } []
      { repo_root := "r", worktree_path := "w",
        ticket := { key := "k", summary := "s" },
        quick_actions := [], env := [("K", "caller"), ("L", "kept")] }
      "L" "kept" (by decide) (by decide)⟩

/-- C4: the quick-action list produced by `ReactEnvironmentAgent.handle`
has no duplicates, contains exactly the configured defaults and extras,
and lists them in order of first occurrence across defaults-then-extras
(strictly increasing first-occurrence index); the returned mapping carries
the same list the context was overwritten with; and the spec scenario
`["a","b"]` + `["b","c"]` merges to `["a","b","c"]`. Repeating the call
with the same defaults and extras yields the same term, hence an identical
sequence (the merge is a pure function of its inputs). -/
theorem quick_actions_merge (config : ReactConfig) (extra_actions : List String)
    (context : WorkspaceContext) :
    ((ReactEnvironmentAgent.handle config extra_actions context).1.quick_actions).Nodup ∧
    (∀ x, x ∈ (ReactEnvironmentAgent.handle config extra_actions context).1.quick_actions ↔
      x ∈ config.quick_actions ++ extra_actions) ∧
    ((ReactEnvironmentAgent.handle config extra_actions context).1.quick_actions).Pairwise
      (fun x y => (config.quick_actions ++ extra_actions).indexOf x <
        (config.quick_actions ++ extra_actions).indexOf y) ∧
    (ReactEnvironmentAgent.handle config extra_actions context).2.quick_actions =
      (ReactEnvironmentAgent.handle config extra_actions context).1.quick_actions ∧
    (ReactEnvironmentAgent.handle { quick_actions := ["a", "b"], extra_env := [] }
        ["b", "c"] context).1.quick_actions = ["a", "b", "c"] := by
  refine ⟨fromKeysDedup_nodup _, fun x => mem_fromKeysDedup _ x,
    fromKeysDedup_pairwise_indexOf _, rfl, ?_⟩
  show fromKeysDedup (["a", "b"] ++ ["b", "c"]) = ["a", "b", "c"]
  simp [fromKeysDedup]

/-- Outcome of the spawned external process as captured by
`subprocess.run(..., capture_output=True)`. -/
structure ProcResult where
  returncode : Int
  stdout : String
  stderr : String
deriving Repr, DecidableEq

/-- `CLIError` from `utils/cli.py`: carries the command, the exit code and
the captured stdout/stderr verbatim. -/
structure CLIError where
  command : List String
  exit_code : Int
  stdout : String
  stderr : String
deriving Repr, DecidableEq

/-- The message built by `CLIError.__init__` for `super().__init__`. -/
def CLIError.message (e : CLIError) : String :=
  (if e.exit_code ≠ 0 then "Command failed" else "Command succeeded") ++ ": " ++
    (" ".intercalate e.command) ++ " (exit code " ++ toString e.exit_code ++ ")\n" ++
    "stdout:\n" ++ e.stdout ++ "\n" ++ "stderr:\n" ++ e.stderr

/-- Python `str.strip()` (ASCII-whitespace model): drop leading and
trailing whitespace characters. -/
def pyStrip (s : String) : String :=
  ⟨((s.data.dropWhile Char.isWhitespace).reverse.dropWhile Char.isWhitespace).reverse⟩

/-- `run` from `utils/cli.py`: raises `CLIError` when the process exits
non-zero, otherwise returns stdout stripped of surrounding whitespace.
The process outcome is passed in as `result`. -/
def run (command : List String) (result : ProcResult) : Except CLIError String :=
  if result.returncode ≠ 0 then
    .error { command := command, exit_code := result.returncode,
             stdout := result.stdout, stderr := result.stderr }
  else
    .ok (pyStrip result.stdout)

/-- C7: `run` raises exactly on non-zero exit status; the raised error
carries command, exit code, stdout and stderr verbatim; on zero exit it
returns trimmed stdout; and an exit code 1 with stderr `"not found"`
surfaces an error whose stderr is `"not found"` verbatim. -/
theorem run_contract (command : List String) (result : ProcResult) :
    (result.returncode ≠ 0 →
      run command result =
        .error ⟨command, result.returncode, result.stdout, result.stderr⟩) ∧
    (result.returncode = 0 → run command result = .ok (pyStrip result.stdout)) ∧
    (∀ e, run command result = .error e →
      result.returncode ≠ 0 ∧ e.command = command ∧ e.exit_code = result.returncode ∧
        e.stdout = result.stdout ∧ e.stderr = result.stderr) ∧
    (∀ e, run ["wtm", "worktree", "list", "--json"]
        { returncode := 1, stdout := "", stderr := "not found" } = .error e →
      e.stderr = "not found") := by
  refine ⟨?_, ?_, ?_, ?_⟩
  · intro h
    simp [run, h]
  · intro h
    simp [run, h]
  · intro e he
    by_cases h : result.returncode = 0
    · simp [run, h] at he
    · simp [run, h] at he
      cases he
      exact ⟨h, rfl, rfl, rfl, rfl⟩
  · intro e he
    simp [run] at he
    cases he
    rfl

/-- C7 witness: `run_contract` applied at concrete process outcomes. -/
theorem run_contract_witness :
    run ["wtm", "worktree", "add", "b"] { returncode := 1, stdout := "out", stderr := "not found" } =
      .error { command := ["wtm", "worktree", "add", "b"], exit_code := 1,
               stdout := "out", stderr := "not found" } ∧
    run ["wtm", "worktree", "add", "b"] { returncode := 0, stdout := "  done \n", stderr := "" } =
      .ok "done" :=
  ⟨(run_contract ["wtm", "worktree", "add", "b"]
      { returncode := 1, stdout := "out", stderr := "not found" }).1 (by decide),
   (run_contract ["wtm", "worktree", "add", "b"]
      { returncode := 0, stdout := "  done \n", stderr := "" }).2.1 rfl⟩

/-- One record of `wtm worktree list --json` output (`{branch, path, ...}`). -/
structure WorktreeRecord where
  branch : String
  path : String
deriving Repr, DecidableEq

/-- The payload fields read by `WorktreeManagerAgent._add` / `_remove`;
`none` models an absent (or `None`) payload value. -/
structure WtPayload where
  branch? : Option String := none
  path? : Option String := none
  force : Bool := false
deriving Repr, DecidableEq

/-- `payload.get("branch") or context.ticket.slug`: Python `or` falls back
to the slug when the payload value is absent or falsy (empty string). -/
def branchOrSlug (branch? : Option String) (slug : String) : String :=
  match branch? with
  | none => slug
  | some b => if b = "" then slug else b

/-- The argv built by `WorktreeManagerAgent._add` (the path hint is
appended only when truthy). -/
def addArgs (wtm_binary : String) (payload : WtPayload) (slug : String) : List String :=
  [wtm_binary, "worktree", "add", branchOrSlug payload.branch? slug] ++
    (match payload.path? with
     | none => []
     | some h => if h = "" then [] else [h])

/-- The argv built by `WorktreeManagerAgent._remove` (`--force` appended
when the flag is truthy). -/
def removeArgs (wtm_binary : String) (payload : WtPayload) (slug : String) : List String :=
  [wtm_binary, "worktree", "remove", branchOrSlug payload.branch? slug] ++
    (if payload.force then ["--force"] else [])

/-- The worktree-path lookup of `_add`:
`next((Path(item["path"]) for item in worktrees if item["branch"] == branch), None)`. -/
def addLookup (branch : String) (worktrees : List WorktreeRecord) : Option String :=
  (worktrees.find? (fun item => item.branch == branch)).map (·.path)

/-- The mapping returned by `_add` after a successful add command:
the requested branch together with the looked-up path (absent when no
listing record matches — no error is raised). -/
def addResult (payload : WtPayload) (slug : String) (worktrees : List WorktreeRecord) :
    String × Option String :=
  let branch := branchOrSlug payload.branch? slug
  (branch, addLookup branch worktrees)

/-- C6: `_add`'s path lookup returns the path of the first listing record
whose branch field equals the requested branch (exact string equality),
and an absent path — not an error — when no record matches. -/
theorem add_lookup_first_match (branch : String) (worktrees : List WorktreeRecord) :
    ((∀ r ∈ worktrees, r.branch ≠ branch) → addLookup branch worktrees = none) ∧
    (∀ i, ∀ h : i < worktrees.length,
      (worktrees.get ⟨i, h⟩).branch = branch →
      (∀ j, ∀ hj : j < i, (worktrees.get ⟨j, Nat.lt_trans hj h⟩).branch ≠ branch) →
      addLookup branch worktrees = some (worktrees.get ⟨i, h⟩).path) := by
  constructor
  · intro hnone
    have : List.find? (fun item => item.branch == branch) worktrees = none := by
      rw [List.find?_eq_none]
      intro r hr
      simpa using hnone r hr
    simp [addLookup, this]
  · induction worktrees with
    | nil =>
      intro i h
      exact absurd h (Nat.not_lt_zero i)
    | cons r rest ih =>
      intro i h hbr hfirst
      cases i with
      | zero =>
        have : (r.branch == branch) = true := by simpa using hbr
        simp [addLookup, List.find?, this]
      | succ n =>
        have hr : r.branch ≠ branch := by
          have := hfirst 0 (Nat.succ_pos n)
          simpa using this
        have hrb : (r.branch == branch) = false := by simpa using hr
        have hn : n < rest.length := Nat.lt_of_succ_lt_succ h
        have hrec := ih n hn (by simpa using hbr)
          (fun j hj => by
            have := hfirst (j + 1) (Nat.succ_lt_succ hj)
            simpa using this)
        simpa [addLookup, List.find?, hrb] using hrec

/-- C6 witness: `add_lookup_first_match` applied to a concrete listing —
the first of two records with branch `"b"` wins, and a listing with no
matching record yields an absent path. -/
theorem add_lookup_first_match_witness :
    addLookup "b" [{ branch := "a", path := "pa" }, { branch := "b", path := "pb" },
      { branch := "b", path := "pb2" }] = some "pb" ∧
    addLookup "b" [{ branch := "a", path := "pa" }] = none :=
  ⟨(add_lookup_first_match "b" [{ branch := "a", path := "pa" },
      { branch := "b", path := "pb" }, { branch := "b", path := "pb2" }]).2 1 (by decide)
      (by decide) (by decide),
   (add_lookup_first_match "b" [{ branch := "a", path := "pa" }]).1 (by decide)⟩

/-- C10: `_add` and `_remove` treat an explicitly supplied empty-string
branch the same as an absent one — the branch placed in the CLI argv is
the ticket slug, not the empty string. -/
theorem empty_branch_uses_slug (wtm_binary slug : String) (hint : Option String)
    (force : Bool) :
    branchOrSlug (some "") slug = slug ∧
    branchOrSlug none slug = slug ∧
    addArgs wtm_binary { branch? := some "", path? := hint, force := force } slug =
      addArgs wtm_binary { branch? := none, path? := hint, force := force } slug ∧
    (addArgs wtm_binary { branch? := some "", path? := hint, force := force } slug)[3]? =
      some slug ∧
    removeArgs wtm_binary { branch? := some "", path? := hint, force := force } slug =
      removeArgs wtm_binary { branch? := none, path? := hint, force := force } slug ∧
    (removeArgs wtm_binary { branch? := some "", path? := hint, force := force } slug)[3]? =
      some slug := by
  refine ⟨rfl, rfl, rfl, ?_, rfl, ?_⟩
  · simp [addArgs, branchOrSlug, List.cons_append, List.nil_append]
  · simp [removeArgs, branchOrSlug, List.cons_append, List.nil_append]

/-- The internal action selected by `JiraAgent.handle`. -/
inductive JiraAction where
  | suggest
  | detail (key : String)
deriving Repr, DecidableEq

/-- The dispatch of `JiraAgent.handle`:
`action = payload.get("action", "suggest")`; unrecognised values raise
`ValueError(f"Unsupported Jira action: {action}")`. -/
def JiraAgent.dispatch (action? : Option String) (key : String) : Except String JiraAction :=
  let action := action?.getD "suggest"
  if action = "suggest" then .ok .suggest
  else if action = "detail" then .ok (.detail key)
  else .error ("Unsupported Jira action: " ++ action)

/-- The internal action selected by `WorktreeManagerAgent.handle`. -/
inductive WorktreeAction where
  | add
  | remove
  | list
deriving Repr, DecidableEq

/-- Python `f"{action}"` for `action = payload.get("action")`: the absent
value `None` renders as the text `"None"`. -/
def formatOptStr : Option String → String
  | none => "None"
  | some s => s

/-- The dispatch of `WorktreeManagerAgent.handle`:
`action = payload.get("action")` with no default; anything that is not
`"add"`, `"remove"` or `"list"` raises
`ValueError(f"Unsupported worktree action: {action}")`. -/
def WorktreeManagerAgent.dispatch (action? : Option String) : Except String WorktreeAction :=
  if action? = some "add" then .ok .add
  else if action? = some "remove" then .ok .remove
  else if action? = some "list" then .ok .list
  else .error ("Unsupported worktree action: " ++ formatOptStr action?)

/-- C9: a payload with no `"action"` key is treated by `JiraAgent.handle`
as the `suggest` action (no unsupported-action error), whereas
`WorktreeManagerAgent.handle` on such a payload raises an
unsupported-action error naming the absent value (`None`). -/
theorem missing_action_dispatch (key : String) :
    JiraAgent.dispatch none key = .ok .suggest ∧
    WorktreeManagerAgent.dispatch none = .error "Unsupported worktree action: None" :=
  ⟨rfl, rfl⟩

/-- Key order used by Python `sorted(self.env.items())`: tuples compare by
first component, and the second component is consulted only on equal
firsts — which cannot happen for the items of a dict (unique keys), so the
order is key order. -/
def envKeyLe (a b : String × String) : Prop :=
  a.1 ≤ b.1

instance envKeyLe.decidableRel : DecidableRel envKeyLe := fun a b =>
  decidable_of_iff (a.1 ≤ b.1) Iff.rfl

instance : IsTotal (String × String) envKeyLe :=
  ⟨fun a b => le_total a.1 b.1⟩

instance : IsTrans (String × String) envKeyLe :=
  ⟨fun _ _ _ hab hbc => le_trans hab hbc⟩

/-- Python `sorted(self.env.items())` (insertion sort is a sort, and the
sorted sequence is unique for a linear key order). -/
def sortedItems (env : List (String × String)) : List (String × String) :=
  List.insertionSort envKeyLe env

/-- The `env_lines` local of `WorkspaceContext.to_prompt`:
`"\n".join(f"{key}={value}" for key, value in sorted(self.env.items()))`. -/
def envLines (env : List (String × String)) : String :=
  String.intercalate "\n" ((sortedItems env).map (fun kv => kv.1 ++ "=" ++ kv.2))

/-- The `actions` local of `WorkspaceContext.to_prompt`:
`"\n".join(f"- {action}" for action in self.quick_actions)`. -/
def actionLines (quick_actions : List String) : String :=
  String.intercalate "\n" (quick_actions.map (fun a => "- " ++ a))

/-- `WorkspaceContext.to_prompt` from `context.py`. `x or "  (none)"` on a
string is the fallback exactly when `x` is empty. The ticket separator is
the three-character sequence literally present in the source file. -/
def WorkspaceContext.to_prompt (ctx : WorkspaceContext) : String :=
  "Repository root: " ++ ctx.repo_root ++ "\n" ++
    "Worktree path: " ++ ctx.worktree_path ++ "\n" ++
    "Ticket: " ++ ctx.ticket.key ++ " â€” " ++ ctx.ticket.summary ++ "\n" ++
    "Quick actions:\n" ++
    (if actionLines ctx.quick_actions = "" then "  (none)" else actionLines ctx.quick_actions) ++
    "\n" ++ "Environment:\n" ++
    (if envLines ctx.env = "" then "  (none)" else envLines ctx.env)

/-- `CodingAgent.handle` from `coding.py`: goal and assistant defaults plus
the rendered context. -/
def CodingAgent.handle (name : String) (goal? assistant? : Option String)
    (context : WorkspaceContext) : String × String :=
  let goal := goal?.getD "Implement the requested feature"
  (goal ++ "\n\n" ++ "Context:\n" ++ context.to_prompt ++ "\n\n" ++
    "Please plan the changes, execute them, and report status.",
   assistant?.getD name)

/-- C8: the environment lines of the prompt are sorted by key (the sorted
item list is a permutation of the env with keys in nondecreasing order),
and empty `quick_actions` / empty `env` render the `"  (none)"`
placeholder rather than an empty string; with both sections empty the
whole prompt is the explicit text below. `to_prompt` is a pure function of
the context, so equal contexts render equal prompts (determinism). -/
theorem to_prompt_rendering (ctx : WorkspaceContext) :
    ((sortedItems ctx.env).map Prod.fst).Sorted (· ≤ ·) ∧
    List.Perm (sortedItems ctx.env) ctx.env ∧
    (ctx.quick_actions = [] →
      (if actionLines ctx.quick_actions = "" then "  (none)"
        else actionLines ctx.quick_actions) = "  (none)") ∧
    (ctx.env = [] →
      (if envLines ctx.env = "" then "  (none)" else envLines ctx.env) = "  (none)") ∧
    (ctx.quick_actions = [] → ctx.env = [] →
      ctx.to_prompt =
        "Repository root: " ++ ctx.repo_root ++ "\n" ++
          "Worktree path: " ++ ctx.worktree_path ++ "\n" ++
          "Ticket: " ++ ctx.ticket.key ++ " â€” " ++ ctx.ticket.summary ++ "\n" ++
          "Quick actions:\n" ++ "  (none)" ++ "\n" ++ "Environment:\n" ++ "  (none)") := by
  refine ⟨?_, ?_, ?_, ?_, ?_⟩
  · exact (List.sorted_insertionSort envKeyLe ctx.env).map Prod.fst (fun a b hab => hab)
  · exact List.perm_insertionSort envKeyLe ctx.env
  · intro hqa
    rw [hqa]
    rfl
  · intro henv
    rw [henv]
    rfl
  · intro hqa henv
    show _ = _
    rw [WorkspaceContext.to_prompt, hqa, henv]
    rfl

/-- C8 witness: `to_prompt_rendering` applied to a concrete context with
empty quick actions and empty env — both sections render `"  (none)"`. -/
theorem to_prompt_rendering_witness :
    WorkspaceContext.to_prompt
      { repo_root := "/repo", worktree_path := "/repo/.wtm/workspaces/mob-42-x",
        ticket := { key := "MOB-42", summary := "X" },
        quick_actions := [], env := [] } =
      "Repository root: " ++ "/repo" ++ "\n" ++
        "Worktree path: " ++ "/repo/.wtm/workspaces/mob-42-x" ++ "\n" ++
        "Ticket: " ++ "MOB-42" ++ " â€” " ++ "X" ++ "\n" ++
        "Quick actions:\n" ++ "  (none)" ++ "\n" ++ "Environment:\n" ++ "  (none)" :=
  (to_prompt_rendering
    { repo_root := "/repo", worktree_path := "/repo/.wtm/workspaces/mob-42-x",
      ticket := { key := "MOB-42", summary := "X" },
      quick_actions := [], env := [] }).2.2.2.2 rfl rfl

/-- JSON values, as parsed by `json.load` / produced for `json.dump`. -/
inductive Json where
  | null
  | bool (b : Bool)
  | str (s : String)
  | num (n : Int)
  | arr (items : List Json)
  | obj (fields : List (String × Json))

/-- Lookup with default on the fields of a JSON object
(`fields.get(key, default)` where `fields` is known to be a dict). -/
def objGet (fields : List (String × Json)) (key : String) (default : Json) : Json :=
  ((fields.find? (fun p => p.1 == key)).map Prod.snd).getD default

/-- `data.get(key, default)`: raises (`AttributeError`) unless `data` is a
dict. -/
def Json.getD (data : Json) (key : String) (default : Json) : Except Unit Json :=
  match data with
  | .obj fields => .ok (objGet fields key default)
  | _ => .error ()

def asObj : Json → Except Unit (List (String × Json))
  | .obj fields => .ok fields
  | _ => .error ()

/-- Reading a JSON value into a declared `str` field of the dataclass. -/
def asString : Json → Except Unit String
  | .str s => .ok s
  | _ => .error ()

/-- Reading a JSON value into the declared `List[str]` field. -/
def asStringList : Json → Except Unit (List String)
  | .arr items => items.mapM asString
  | _ => .error ()

/-- Reading a JSON value into the declared `Optional[str]` field. -/
def asOptString : Json → Except Unit (Option String)
  | .null => .ok none
  | .str s => .ok (some s)
  | _ => .error ()

/-- Python truthiness of a JSON-shaped value (`x or y` picks `y` exactly
when `x` is falsy). -/
def pyTruthy : Json → Bool
  | .null => false
  | .bool b => b
  | .str s => !(s == "")
  | .num n => !(n == 0)
  | .arr items => !items.isEmpty
  | .obj fields => !fields.isEmpty

/-- `JiraAgent._ticket_from_json` from `jira.py`: `fields = data.get("fields", {})`,
then key/summary/url/labels and the status-name / assignee-display-name
`extra` entries, with `(fields.get("assignee") or {})` guarding a falsy
assignee. Values are read into the dataclass's declared field types; a
value of a different JSON shape than the declared type is modelled as an
error. -/
def ticket_from_json (data : Json) : Except Unit JiraTicket := do
  let fields ← asObj (← data.getD "fields" (.obj []))
  let key ← asString (← data.getD "key" (.str ""))
  let summary ← asString (objGet fields "summary" (.str ""))
  let url ← asOptString (← data.getD "self" .null)
  let labels ← asStringList (objGet fields "labels" (.arr []))
  let status ← asObj (objGet fields "status" (.obj []))
  let statusName ← asString (objGet status "name" (.str ""))
  let assigneeJ := objGet fields "assignee" .null
  let assignee ← if pyTruthy assigneeJ then asObj assigneeJ else .ok []
  let assigneeName ← asString (objGet assignee "displayName" (.str ""))
  return { key := key, summary := summary, url := url, labels := labels,
           extra := [("status", statusName), ("assignee", assigneeName)] }

/-- `ticket.__dict__` as serialised by the `json.dump` cache write in
`_fetch`: an object with the dataclass fields in declaration order. -/
def Json.ofTicket (t : JiraTicket) : Json :=
  .obj [("key", .str t.key), ("summary", .str t.summary),
        ("url", match t.url with | none => .null | some s => .str s),
        ("labels", .arr (t.labels.map .str)),
        ("extra", .obj (t.extra.map (fun kv => (kv.1, .str kv.2))))]

/-- Python iteration `for item in cached` over a parsed JSON value: arrays
yield their items, strings their characters (as 1-character strings),
dicts their keys; other values raise `TypeError`. -/
def pyIter : Json → Except Unit (List Json)
  | .arr items => .ok items
  | .str s => .ok (s.data.map (fun c => .str ⟨[c]⟩))
  | .obj fields => .ok (fields.map (fun p => .str p.1))
  | _ => .error ()

/-- The cache-reading try-block of `JiraAgent._fetch`: parse the file
content as JSON (`content = .error ()` models text `json.load` rejects)
and normalise each record; any failure anywhere is an error (caught by
the caller). -/
def readCachedTickets (content : Except Unit Json) : Except Unit (List JiraTicket) := do
  let j ← content
  let items ← pyIter j
  items.mapM ticket_from_json

/-- The live-fetch step of `_fetch`: `data = cli.run_json(command) or []`
(`live = none` models empty stdout) followed by normalisation, whose
failures propagate. -/
def liveTickets (live : Option Json) : Except Unit (List JiraTicket) := do
  let data := match live with
    | none => Json.arr []
    | some j => if pyTruthy j then j else Json.arr []
  let items ← pyIter data
  items.mapM ticket_from_json

/-- Observable outcome of `JiraAgent._fetch`: the returned tickets,
whether the cache file was deleted, and the cache file state afterwards
(`none`: absent; `some content`: present with that parse result). -/
structure FetchOutcome where
  tickets : List JiraTicket
  deletedCache : Bool
  finalCache : Option (Except Unit Json)

/-- `JiraAgent._fetch` from `jira.py`: if the cache file exists, try to
read and normalise it and return the result; on any failure delete the
file and fall through to the live fetch; on cache miss run the live fetch
and write the normalised records back to the cache. A live-fetch error
propagates (the prior deletion is not part of the error value). -/
def JiraAgent.fetch (cache : Option (Except Unit Json)) (live : Option Json) :
    Except Unit FetchOutcome :=
  match cache with
  | some content =>
    match readCachedTickets content with
    | .ok tickets =>
        .ok { tickets := tickets, deletedCache := false, finalCache := some content }
    | .error _ =>
        match liveTickets live with
        | .ok tickets =>
            .ok { tickets := tickets, deletedCache := true,
                  finalCache := some (.ok (.arr (tickets.map Json.ofTicket))) }
        | .error e => .error e
  | none =>
    match liveTickets live with
    | .ok tickets =>
        .ok { tickets := tickets, deletedCache := false,
              finalCache := some (.ok (.arr (tickets.map Json.ofTicket))) }
    | .error e => .error e

/-- C5: if the cache file exists but its content is invalid (the
read-and-normalise step fails), `suggest` does not raise from the
cache-reading step: the cache file is deleted and, the live fetch
succeeding, the live tickets are returned (and written back). -/
theorem cache_corruption_recovery (content : Except Unit Json) (live : Option Json)
    (tickets : List JiraTicket)
    (hbad : readCachedTickets content = .error ())
    (hlive : liveTickets live = .ok tickets) :
    JiraAgent.fetch (some content) live =
      .ok { tickets := tickets, deletedCache := true,
            finalCache := some (.ok (.arr (tickets.map Json.ofTicket))) } := by
  simp [JiraAgent.fetch, hbad, hlive]

/-- A raw tracker-shaped record as returned by the Jira CLI. -/
def sampleRawTicket : Json :=
  .obj [("key", .str "MOB-7"), ("self", .str "https://jira/MOB-7"),
        ("fields", .obj
          [("summary", .str "Fix crash"), ("labels", .arr [.str "bug"]),
           ("status", .obj [("name", .str "Open")]),
           ("assignee", .obj [("displayName", .str "Ann")])])]

/-- The normalised form of `sampleRawTicket`. -/
def sampleTicket : JiraTicket :=
  { key := "MOB-7", summary := "Fix crash", url := some "https://jira/MOB-7",
    labels := ["bug"], extra := [("status", "Open"), ("assignee", "Ann")] }

/-- What re-reading `sampleTicket`'s cache record yields: only `key`
survives. -/
def degradedTicket : JiraTicket :=
  { key := "MOB-7", summary := "", url := none, labels := [],
    extra := [("status", ""), ("assignee", "")] }

/-- C5 witness: `cache_corruption_recovery` applied to a concrete corrupt
cache (unparseable text) and a concrete live fetch. -/
theorem cache_corruption_recovery_witness :
    JiraAgent.fetch (some (.error ())) (some (.arr [sampleRawTicket])) =
      .ok { tickets := [sampleTicket], deletedCache := true,
            finalCache := some (.ok (.arr [Json.ofTicket sampleTicket])) } :=
  cache_corruption_recovery (.error ()) (some (.arr [sampleRawTicket])) [sampleTicket]
    rfl rfl

/-- C1 (code bug in the cache round-trip): `_fetch` writes the normalised
`ticket.__dict__` records to the cache but re-reads them with
`_ticket_from_json`, which expects the raw tracker shape (`fields`,
`self`); so a subsequent `suggest` serves tickets whose summary, url,
labels and extra are reset to defaults — only `key` is preserved,
contradicting the claim that all fields round-trip. Evaluated on a
concrete ticket, both directly and through the full `_fetch` pipeline. -/
theorem cache_roundtrip_loses_fields :
    ticket_from_json (Json.ofTicket sampleTicket) = .ok degradedTicket ∧
    degradedTicket ≠ sampleTicket ∧
    JiraAgent.fetch (some (.ok (.arr [Json.ofTicket sampleTicket]))) none =
      .ok { tickets := [degradedTicket], deletedCache := false,
            finalCache := some (.ok (.arr [Json.ofTicket sampleTicket])) } :=
  ⟨rfl, by decide, rfl⟩
